import Mathlib

/-!
# Verification of the band-ratio pipeline (`band_ratio.py`)

Shallow embedding of `FindBandRatio` from `code/notebooks/band_ratio.py`.
Reflectance and wavelength values are modelled as exact rationals; pandas
dataframes become lists of records.  File I/O and plotting are out of scope
(per the spec they are external collaborators); the embedding takes the
parsed `(wavelength, reflectance)` samples directly.

Modelling notes, tied to the Python source:
* `pd.DataFrame` with columns `wavelength`, `reflectance` → `List Sample`;
  with the added `line` column → `List Row`.
* `df.sort_values(by=[wavelength, reflectance], ascending=True)` → a sort
  by the lexicographic key.  (Rows comparing equal both ways are equal
  as values, so the sorted list is unique regardless of sort stability.)
* `scipy.stats.linregress([x0, x1], [y0, y1])` raises
  `ValueError("Cannot calculate a linear regression if all x values are
  identical")` when `x0 = x1`; otherwise the least-squares line through two
  points is the chord through them.  `.iloc[0]` / `.iloc[-1]` on an empty
  frame raise `IndexError`.  These exception sites become `Except` errors.
* `np.trapz(y, x)` → `trapz`, the trapezoidal sum over consecutive pairs.
* Python float division by zero does not raise (numpy yields inf/nan);
  the unguarded `ratio = area_165 / area_total` is therefore modelled by
  total rational division (which yields 0 at denominator 0) — in neither
  semantics is an error surfaced.
-/

namespace BandRatio

/-- One raw spectral measurement: a `(wavelength, reflectance)` pair. -/
structure Sample where
  wavelength : ℚ
  reflectance : ℚ
deriving DecidableEq, Repr

/-- A processed record: a sample together with the fitted `line` column. -/
structure Row where
  wavelength : ℚ
  reflectance : ℚ
  line : ℚ
deriving DecidableEq, Repr

/-- Dropping the `line` column (`df.drop('line', axis=1)`). -/
def Row.toSample (r : Row) : Sample := ⟨r.wavelength, r.reflectance⟩

/-- Exception sites of the Python code, plus the spec's `UndefinedRatioError`
(which, as proved below, the code never raises). -/
inductive Err where
  /-- `IndexError` from `.iloc[0]` / `.iloc[-1]` on an empty frame. -/
  | emptyTable
  /-- `ValueError` raised by `scipy.stats.linregress` when all x values are
  identical. -/
  | degenerateFit
  /-- `IndexError` from `ind_list[-1]` when the fallback index list is empty. -/
  | noFeatureBoundary
  /-- The spec's `UndefinedRatioError` (full-band area exactly zero).  No code
  path produces it. -/
  | undefinedRatio
deriving DecidableEq, Repr

/-- The configuration constants set in `FindBandRatio.__init__`.
(`data_dir`, `file_list`, column names and plot colours play no role in the
numeric pipeline.) -/
structure FindBandRatio where
  min_micron : ℚ := 1.4
  max_micron : ℚ := 1.69
  min_micron_165 : ℚ := 1.626
deriving DecidableEq, Repr

/-- The instance with the constants hard-coded in `__init__`. -/
def defaultBR : FindBandRatio := {}

/-- The sort key of `sort_values(by=['wavelength', 'reflectance'])`:
lexicographic on (wavelength, reflectance), ascending. -/
def sampleR (a b : Sample) : Prop :=
  a.wavelength < b.wavelength ∨
    (a.wavelength = b.wavelength ∧ a.reflectance ≤ b.reflectance)

instance : DecidableRel sampleR := fun a b => by
  unfold sampleR; infer_instance

instance : IsTrans Sample sampleR :=
  ⟨by
    intro a b c hab hbc
    rcases hab with h1 | ⟨h1, h1'⟩ <;> rcases hbc with h2 | ⟨h2, h2'⟩
    · exact Or.inl (by linarith)
    · exact Or.inl (by linarith)
    · exact Or.inl (by linarith)
    · exact Or.inr ⟨by linarith, by linarith⟩⟩

instance : IsTotal Sample sampleR :=
  ⟨by
    intro a b
    rcases lt_trichotomy a.wavelength b.wavelength with h | h | h
    · exact Or.inl (Or.inl h)
    · rcases le_total a.reflectance b.reflectance with hr | hr
      · exact Or.inl (Or.inr ⟨h, hr⟩)
      · exact Or.inr (Or.inr ⟨h.symm, hr⟩)
    · exact Or.inr (Or.inl h)⟩

instance : IsAntisymm Sample sampleR :=
  ⟨by
    intro a b hab hba
    rcases hab with h1 | ⟨h1, h1'⟩ <;> rcases hba with h2 | ⟨h2, h2'⟩
    · exact absurd h2 (lt_asymm h1)
    · exact absurd h1 (by linarith)
    · exact absurd h2 (by linarith)
    · obtain ⟨aw, ar⟩ := a
      obtain ⟨bw, br⟩ := b
      simp only [Sample.mk.injEq]
      exact ⟨h1, le_antisymm h1' h2'⟩⟩

/-- `df.sort_values(by=['wavelength', 'reflectance'], ascending=True)`.
Two rows comparing equal both ways under the lexicographic key are equal as
values (`sampleR` is antisymmetric), so the sorted list is the same for any
sorting algorithm; we use insertion sort. -/
def sortSamples (l : List Sample) : List Sample := l.insertionSort sampleR

/-- The index `ind_list[-1]`: the last (largest) position in `df` whose row
satisfies `p`, i.e. the last element of the pandas index list
`df[p].index`; `none` when that list is empty (where `[-1]` would raise
`IndexError`). -/
def lastIdxWhere (p : α → Bool) : List α → Option ℕ
  | [] => none
  | a :: l =>
    match lastIdxWhere p l with
    | some i => some (i + 1)
    | none => if p a then some 0 else none

namespace FindBandRatio

/-- `find_slope_intercept`: the two-point line through the first and last rows
of a sorted frame, via `scipy.stats.linregress`.  `linregress` raises when the
two x values are identical, and `.iloc` raises on an empty frame. -/
def find_slope_intercept (df : List Sample) : Except Err (ℚ × ℚ) :=
  match df.head?, df.getLast? with
  | some first, some last =>
    if first.wavelength = last.wavelength then .error .degenerateFit
    else
      -- two-point least squares = the chord through the two points
      let slope := (last.reflectance - first.reflectance) /
        (last.wavelength - first.wavelength)
      .ok (slope, first.reflectance - slope * first.wavelength)
  | _, _ => .error .emptyTable

/-- The filter `(df[wl] >= min_micron) & (df[wl] < max_micron)`. -/
def inWindow (self : FindBandRatio) (s : Sample) : Bool :=
  decide (self.min_micron ≤ s.wavelength) && decide (s.wavelength < self.max_micron)

/-- `process_spectrum_dataframe`: window filter, sort, two-point fit, and the
added `line = slope * wavelength + intercept` column. -/
def process_spectrum_dataframe (self : FindBandRatio) (df : List Sample) :
    Except Err (List Row) :=
  let df_spectrum := sortSamples (df.filter (self.inWindow ·))
  match find_slope_intercept df_spectrum with
  | .error e => .error e
  | .ok si =>
    .ok (df_spectrum.map fun s => ⟨s.wavelength, s.reflectance, si.1 * s.wavelength + si.2⟩)

/-- The boundary-index selection of `process_165_feature_dataframe` (lines
165–176): the last index with an exact wavelength match, else the last index
with wavelength strictly below `min_micron_165`, else failure.  (The guard
`if len(ind_list > 0):` compares the index elementwise with 0 and takes the
length of the resulting boolean array, so it is equivalent to the intended
`if len(ind_list) > 0:`.) -/
def feature_boundary_index (self : FindBandRatio) (df : List Row) : Option ℕ :=
  match lastIdxWhere (fun r => decide (r.wavelength = self.min_micron_165)) df with
  | some i => some i
  | none => lastIdxWhere (fun r => decide (r.wavelength < self.min_micron_165)) df

/-- `process_165_feature_dataframe`: select the boundary index, keep the rows
from it on (`df[df.index >= ind_max]`), drop the stale `line` column, refit,
and attach the feature's own line column. -/
def process_165_feature_dataframe (self : FindBandRatio) (df : List Row) :
    Except Err (List Row) :=
  match feature_boundary_index self df with
  | none => .error .noFeatureBoundary
  | some ind_max =>
    let df_spectrum_165 := (df.drop ind_max).map Row.toSample
    match find_slope_intercept df_spectrum_165 with
    | .error e => .error e
    | .ok si =>
      .ok (df_spectrum_165.map fun s =>
        ⟨s.wavelength, s.reflectance, si.1 * s.wavelength + si.2⟩)

end FindBandRatio

/-- `np.trapz(y, x)` on the zipped `(x, y)` pairs of two equal-length
columns: the sum of `(x₂ - x₁) * (y₁ + y₂) / 2` over consecutive pairs.
(On fewer than two points `np.trapz` returns `0.0`.) -/
def trapz : List (ℚ × ℚ) → ℚ
  | p :: q :: rest => (q.1 - p.1) * (p.2 + q.2) / 2 + trapz (q :: rest)
  | _ => 0

namespace FindBandRatio

/-- `find_area`: trapezoidal area below the `line` column minus trapezoidal
area below the `reflectance` column, both over the `wavelength` column.
Total — `np.trapz` never raises. -/
def find_area (df : List Row) : ℚ :=
  trapz (df.map fun r => (r.wavelength, r.line))
    - trapz (df.map fun r => (r.wavelength, r.reflectance))

/-- The values `find_ratio` computes internally (lines 211–220): the processed
full band, the processed feature sub-band, and `ratio = area_165 / area_total`.
The division is unguarded in the source; rational division is total (0 at a
zero denominator) where numpy floats give inf/nan — neither raises. -/
def pipelineResult (self : FindBandRatio) (df : List Sample) :
    Except Err (List Row × List Row × ℚ) :=
  match self.process_spectrum_dataframe df with
  | .error e => .error e
  | .ok df_spectrum =>
    match self.process_165_feature_dataframe df_spectrum with
    | .error e => .error e
    | .ok df_spectrum_165 =>
      .ok (df_spectrum, df_spectrum_165,
        find_area df_spectrum_165 / find_area df_spectrum)

/-- `find_ratio`: runs the pipeline, plots, and falls off the end of the
function body — there is no `return` statement, so the caller receives
`None`, modelled as `PUnit`. -/
def find_ratio (self : FindBandRatio) (df : List Sample) : Except Err PUnit :=
  match self.pipelineResult df with
  | .error _e => .error _e
  | .ok _ => .ok PUnit.unit

end FindBandRatio

/-- Scaling every reflectance value of a raw input by the constant `k`
(spec §8, "Integration is linear in the baseline-vs-curve difference"). -/
def scaleRefl (k : ℚ) (df : List Sample) : List Sample :=
  df.map fun s => ⟨s.wavelength, k * s.reflectance⟩

/-- The action of reflectance scaling on a processed row (baselines refit from
the scaled endpoints scale too). -/
def scaleRow (k : ℚ) (r : Row) : Row :=
  ⟨r.wavelength, k * r.reflectance, k * r.line⟩

/-! ### Concrete inputs used in counterexamples and witnesses -/

/-- A raw input whose reflectances are collinear, so that the full-band area
integrates to exactly zero. -/
def cexZero : List Sample := [⟨1.5, 1⟩, ⟨1.6, 2⟩, ⟨1.65, 5/2⟩]

/-- The processed full band of `cexZero` (baseline = curve everywhere). -/
def cexZeroFull : List Row := [⟨1.5, 1, 1⟩, ⟨1.6, 2, 2⟩, ⟨1.65, 5/2, 5/2⟩]

/-- The processed feature sub-band of `cexZero`. -/
def cexZeroFeat : List Row := [⟨8/5, 2, 2⟩, ⟨33/20, 5/2, 5/2⟩]

/-- A raw input with two samples at the window's first wavelength: with a
negative scaling constant the (wavelength, reflectance) re-sort swaps them,
changing the chord endpoint. -/
def cexScale : List Sample := [⟨1.5, 1⟩, ⟨1.5, 2⟩, ⟨1.6, 3⟩, ⟨1.65, 7/2⟩]

/-- A processed spectrum with an exact wavelength match at 1.626 and no sample
strictly below 1.626. -/
def cexExactRows : List Row := [⟨1.626, 2, 2⟩, ⟨1.65, 1, 1⟩]

/-- The raw input producing `cexExactRows`. -/
def cexExact : List Sample := [⟨1.626, 2⟩, ⟨1.65, 1⟩]

/-- A processed spectrum all of whose samples lie strictly below 1.626: the
fallback boundary is the last sample. -/
def cexBelowRows : List Row := [⟨1.5, 1, 1⟩, ⟨1.6, 2, 2⟩]

/-- A processed spectrum all of whose samples lie strictly above 1.626. -/
def cexAboveRows : List Row := [⟨1.65, 1, 1⟩]

/-- A processed spectrum with duplicate wavelengths straddling 1.626 (two
exact matches). -/
def wRowsExact : List Row := [⟨1.5, 1, 1⟩, ⟨1.626, 2, 2⟩, ⟨1.626, 3, 3⟩, ⟨1.65, 1, 1⟩]

/-- A processed spectrum with no exact match at 1.626 (fallback case). -/
def wRowsFall : List Row := [⟨1.5, 1, 1⟩, ⟨1.6, 2, 2⟩, ⟨1.65, 1, 1⟩]

/-- A generic valid raw input (one sample below the feature start, two at or
above, nonzero full-band area). -/
def wIn : List Sample := [⟨1.5, 1⟩, ⟨1.6, 2⟩, ⟨1.65, 1⟩]

/-- The processed full band of `wIn`. -/
def wInFull : List Row := [⟨1.5, 1, 1⟩, ⟨1.6, 2, 1⟩, ⟨1.65, 1, 1⟩]

/-- The processed feature sub-band of `wIn`. -/
def wInFeat : List Row := [⟨1.6, 2, 2⟩, ⟨1.65, 1, 1⟩]

/-- A valid raw input with an interior dip inside the feature sub-band. -/
def c1In : List Sample := [⟨1.5, 1⟩, ⟨1.6, 2⟩, ⟨1.63, 1⟩, ⟨1.65, 2⟩]

deriving instance DecidableEq for Except

section

/- Batteries marks the rational-number arithmetic `@[irreducible]`, which
blocks `decide` on concrete pipeline runs; restore reducibility locally. -/
attribute [local semireducible] Rat.mul Rat.inv Rat.add Rat.sub Rat.ofScientific

/-! ### Properties of `lastIdxWhere` -/

theorem lastIdxWhere_eq_none {α : Type _} {p : α → Bool} {l : List α} :
    lastIdxWhere p l = none ↔ ∀ a ∈ l, ¬ p a := by
  induction l with
  | nil => simp [lastIdxWhere]
  | cons a l ih =>
    rw [lastIdxWhere]
    cases hrec : lastIdxWhere p l with
    | some i =>
      simp only [hrec]
      constructor
      · intro h
        exact absurd h (by simp)
      · intro h
        have hn : lastIdxWhere p l = none :=
          ih.mpr fun x hx => h x (List.mem_cons_of_mem a hx)
        rw [hn] at hrec
        exact absurd hrec (by simp)
    | none =>
      have hall := ih.mp hrec
      by_cases hp : p a
      · simp [hp, List.forall_mem_cons]
      · simp only [if_neg hp, List.forall_mem_cons]
        constructor
        · intro _
          exact ⟨hp, hall⟩
        · intro _
          trivial

theorem lastIdxWhere_eq_some {α : Type _} {p : α → Bool} {l : List α} {i : ℕ} :
    lastIdxWhere p l = some i ↔
      ∃ h : i < l.length, p (l.get ⟨i, h⟩) = true ∧
        ∀ j, ∀ hj : j < l.length, i < j → p (l.get ⟨j, hj⟩) = false := by
  induction l generalizing i with
  | nil => simp [lastIdxWhere]
  | cons a l ih =>
    rw [lastIdxWhere]
    cases hrec : lastIdxWhere p l with
    | some i' =>
      simp only [hrec, Option.some.injEq]
      obtain ⟨hi', hp', hmax'⟩ := ih.mp hrec
      constructor
      · rintro rfl
        refine ⟨Nat.succ_lt_succ hi', by simpa using hp', ?_⟩
        intro j hj hij
        cases j with
        | zero => omega
        | succ j' =>
          have hj' : j' < l.length := Nat.lt_of_succ_lt_succ hj
          simpa using hmax' j' hj' (Nat.lt_of_succ_lt_succ hij)
      · rintro ⟨h, hp, hmax⟩
        cases i with
        | zero =>
          exfalso
          have hn : lastIdxWhere p l = none := by
            rw [lastIdxWhere_eq_none]
            intro x hx
            obtain ⟨⟨k, hk⟩, rfl⟩ := List.mem_iff_get.mp hx
            have := hmax (k + 1) (Nat.succ_lt_succ hk) (Nat.succ_pos k)
            simpa using this
          rw [hn] at hrec
          exact absurd hrec (by simp)
        | succ i'' =>
          have hi'' : i'' < l.length := Nat.lt_of_succ_lt_succ h
          have hsome : lastIdxWhere p l = some i'' := by
            rw [ih]
            refine ⟨hi'', by simpa using hp, ?_⟩
            intro j hj hij
            simpa using hmax (j + 1) (Nat.succ_lt_succ hj) (Nat.succ_lt_succ hij)
          rw [hsome] at hrec
          injection hrec with hrec'
          omega
    | none =>
      have hall := lastIdxWhere_eq_none.mp hrec
      by_cases hp : p a
      · simp only [if_pos hp, Option.some.injEq]
        constructor
        · rintro rfl
          refine ⟨Nat.succ_pos _, by simpa using hp, ?_⟩
          intro j hj hij
          cases j with
          | zero => omega
          | succ j' =>
            have hj' : j' < l.length := Nat.lt_of_succ_lt_succ hj
            have := hall (l.get ⟨j', hj'⟩) (l.get_mem _ _)
            simpa using this
        · rintro ⟨h, hpi, hmax⟩
          cases i with
          | zero => rfl
          | succ i'' =>
            exfalso
            have hi'' : i'' < l.length := Nat.lt_of_succ_lt_succ h
            have hmem := hall (l.get ⟨i'', hi''⟩) (l.get_mem _ _)
            exact hmem (by simpa using hpi)
      · simp only [if_neg hp]
        constructor
        · intro h
          exact absurd h (by simp)
        · rintro ⟨h, hpi, hmax⟩
          exfalso
          cases i with
          | zero =>
            exact hp (by simpa using hpi)
          | succ i'' =>
            have hi'' : i'' < l.length := Nat.lt_of_succ_lt_succ h
            have hmem := hall (l.get ⟨i'', hi''⟩) (l.get_mem _ _)
            exact hmem (by simpa using hpi)

theorem lastIdxWhere_lt_length {α : Type _} {p : α → Bool} {l : List α} {i : ℕ}
    (h : lastIdxWhere p l = some i) : i < l.length :=
  (lastIdxWhere_eq_some.mp h).fst

theorem feature_boundary_index_lt_length {self : FindBandRatio} {df : List Row} {i : ℕ}
    (h : self.feature_boundary_index df = some i) : i < df.length := by
  rw [FindBandRatio.feature_boundary_index] at h
  cases hrec : lastIdxWhere (fun r => decide (r.wavelength = self.min_micron_165)) df with
  | some i' =>
    rw [hrec] at h
    injection h with h'
    exact h' ▸ lastIdxWhere_lt_length hrec
  | none =>
    rw [hrec] at h
    exact lastIdxWhere_lt_length h

/-! ### Boundary selection (claim C3) -/

/-- **C3**: the feature-boundary index selection.  If some row's wavelength is
exactly `min_micron_165`, the last such index is selected; otherwise the last
index among rows with wavelength strictly below `min_micron_165` is selected
("last" = no later index satisfies the respective condition). -/
theorem feature_boundary_last_index (self : FindBandRatio) (df : List Row)
    (i : ℕ) (hi : i < df.length) :
    ((df.get ⟨i, hi⟩).wavelength = self.min_micron_165 →
      (∀ j, ∀ hj : j < df.length, i < j →
        (df.get ⟨j, hj⟩).wavelength ≠ self.min_micron_165) →
      self.feature_boundary_index df = some i) ∧
    ((∀ a ∈ df, a.wavelength ≠ self.min_micron_165) →
      (df.get ⟨i, hi⟩).wavelength < self.min_micron_165 →
      (∀ j, ∀ hj : j < df.length, i < j →
        ¬ (df.get ⟨j, hj⟩).wavelength < self.min_micron_165) →
      self.feature_boundary_index df = some i) := by
  constructor
  · intro hp hmax
    have hsome :
        lastIdxWhere (fun r => decide (r.wavelength = self.min_micron_165)) df = some i := by
      rw [lastIdxWhere_eq_some]
      refine ⟨hi, decide_eq_true hp, ?_⟩
      intro j hj hij
      exact decide_eq_false (hmax j hj hij)
    simp only [FindBandRatio.feature_boundary_index, hsome]
  · intro hnone hp hmax
    have h1 :
        lastIdxWhere (fun r => decide (r.wavelength = self.min_micron_165)) df = none := by
      rw [lastIdxWhere_eq_none]
      intro a ha hc
      exact hnone a ha (of_decide_eq_true hc)
    have h2 :
        lastIdxWhere (fun r => decide (r.wavelength < self.min_micron_165)) df = some i := by
      rw [lastIdxWhere_eq_some]
      refine ⟨hi, decide_eq_true hp, ?_⟩
      intro j hj hij
      exact decide_eq_false (hmax j hj hij)
    simp only [FindBandRatio.feature_boundary_index, h1, h2]

/-- Witness for C3: duplicate exact matches at 1.626 — the last one (index 2)
is selected. -/
theorem feature_boundary_last_index_witness :
    defaultBR.feature_boundary_index wRowsExact = some 2 :=
  (feature_boundary_last_index defaultBR wRowsExact 2 (by decide)).1
    (by decide) (by decide)

/-! ### Missing boundary (claim C5) -/

/-- **C5 counterexample**: a processed spectrum (the processed output of the
raw input `cexExact`) containing *no* sample strictly below
`min_micron_165` but an exact match at it.  Contrary to the claim, feature
extraction succeeds. -/
theorem exact_match_without_below_succeeds :
    defaultBR.process_spectrum_dataframe cexExact = .ok cexExactRows ∧
    (∀ a ∈ cexExactRows, ¬ a.wavelength < defaultBR.min_micron_165) ∧
    defaultBR.process_165_feature_dataframe cexExactRows =
      .ok [⟨813/500, 2, 2⟩, ⟨33/20, 1, 1⟩] :=
  ⟨by decide, by decide, by decide⟩

/-- **C5 amended**: extraction fails (the fallback index lookup finds no
candidate) when the processed spectrum has no exact wavelength match at
`min_micron_165` *and* no sample strictly below it. -/
theorem no_boundary_candidate_fails (self : FindBandRatio) (df : List Row)
    (hex : ∀ a ∈ df, a.wavelength ≠ self.min_micron_165)
    (hlt : ∀ a ∈ df, ¬ a.wavelength < self.min_micron_165) :
    self.process_165_feature_dataframe df = .error .noFeatureBoundary := by
  have h1 :
      lastIdxWhere (fun r => decide (r.wavelength = self.min_micron_165)) df = none := by
    rw [lastIdxWhere_eq_none]
    intro a ha hc
    exact hex a ha (of_decide_eq_true hc)
  have h2 :
      lastIdxWhere (fun r => decide (r.wavelength < self.min_micron_165)) df = none := by
    rw [lastIdxWhere_eq_none]
    intro a ha hc
    exact hlt a ha (of_decide_eq_true hc)
  simp only [FindBandRatio.process_165_feature_dataframe,
    FindBandRatio.feature_boundary_index, h1, h2]

/-- Witness for the amended C5: a spectrum entirely above 1.626. -/
theorem no_boundary_candidate_fails_witness :
    defaultBR.process_165_feature_dataframe cexAboveRows = .error .noFeatureBoundary :=
  no_boundary_candidate_fails defaultBR cexAboveRows (by decide) (by decide)

/-! ### Degenerate two-point fit (claim C6) -/

/-- **C6**: when the first and last samples of a table share a wavelength, the
two-point fit fails with an explicit error (`linregress` raises on identical
x values); no slope/intercept is ever returned for such a table. -/
theorem degenerate_fit_fails (df : List Sample) (a b : Sample)
    (ha : df.head? = some a) (hb : df.getLast? = some b)
    (hw : a.wavelength = b.wavelength) :
    FindBandRatio.find_slope_intercept df = .error .degenerateFit := by
  simp only [FindBandRatio.find_slope_intercept, ha, hb, if_pos hw]

/-- Witness for C6: two samples at the same wavelength. -/
theorem degenerate_fit_fails_witness :
    FindBandRatio.find_slope_intercept [⟨3/2, 1⟩, ⟨3/2, 2⟩] = .error .degenerateFit :=
  degenerate_fit_fails [⟨3/2, 1⟩, ⟨3/2, 2⟩] ⟨3/2, 1⟩ ⟨3/2, 2⟩
    (by decide) (by decide) (by decide)

/-! ### The feature sub-band is a contiguous suffix (claim C7) -/

theorem find_slope_intercept_ne_nil {df : List Sample} {si : ℚ × ℚ}
    (h : FindBandRatio.find_slope_intercept df = .ok si) : df ≠ [] := by
  intro he
  rw [he] at h
  simp [FindBandRatio.find_slope_intercept] at h

/-- **C7**: any successfully extracted feature sub-band carries, as its sample
sequence, a contiguous suffix of the parent band's sample sequence, and it is
non-empty; moreover whenever boundary detection succeeds the suffix it selects
is non-empty. -/
theorem feature_sub_band_suffix (self : FindBandRatio) (df : List Row) :
    (∀ out, self.process_165_feature_dataframe df = .ok out →
      ((out.map Row.toSample) <:+ (df.map Row.toSample) ∧ out ≠ [])) ∧
    (∀ i, self.feature_boundary_index df = some i → df.drop i ≠ []) := by
  constructor
  · intro out h
    rw [FindBandRatio.process_165_feature_dataframe] at h
    cases hb : self.feature_boundary_index df with
    | none =>
      rw [hb] at h
      exact absurd h (by simp)
    | some i =>
      rw [hb] at h
      simp only at h
      cases hfit : FindBandRatio.find_slope_intercept ((df.drop i).map Row.toSample) with
      | error e =>
        rw [hfit] at h
        exact absurd h (by simp)
      | ok si =>
        rw [hfit] at h
        simp only [Except.ok.injEq] at h
        subst h
        refine ⟨?_, ?_⟩
        · rw [List.map_map]
          have hid :
              (Row.toSample ∘ fun s =>
                (⟨s.wavelength, s.reflectance, si.1 * s.wavelength + si.2⟩ : Row)) = id := by
            funext s
            rfl
          rw [hid, List.map_id, List.map_drop]
          exact List.drop_suffix i (df.map Row.toSample)
        · have hne : (df.drop i).map Row.toSample ≠ [] := find_slope_intercept_ne_nil hfit
          simpa [List.map_eq_nil_iff] using hne
  · intro i hb
    have hlt : i < df.length := feature_boundary_index_lt_length hb
    intro he
    rw [List.drop_eq_nil_iff] at he
    omega

/-- Witness for C7 at a concrete processed spectrum (fallback boundary at
index 1): the extracted sub-band's samples are a suffix of the parent's. -/
theorem feature_sub_band_suffix_witness :
    (([⟨8/5, 2, 2⟩, ⟨33/20, 1, 1⟩] : List Row).map Row.toSample) <:+
      (wRowsFall.map Row.toSample) ∧
    ([⟨8/5, 2, 2⟩, ⟨33/20, 1, 1⟩] : List Row) ≠ [] :=
  (feature_sub_band_suffix defaultBR wRowsFall).1
    [⟨8/5, 2, 2⟩, ⟨33/20, 1, 1⟩] (by decide)

/-! ### Boundary at the last sample: one-point sub-band (claim C10) -/

/-- **C10**: whenever the selected boundary index is the last sample of the
processed spectrum (e.g. every sample lies strictly below the feature start),
the feature sub-band holds exactly one sample, and the feature's own
two-point fit fails on it (its first and last points share a wavelength), so
no ratio is produced even though a fallback boundary existed. -/
theorem boundary_at_last_sample_degenerate (self : FindBandRatio) (df : List Row)
    (i : ℕ) (hb : self.feature_boundary_index df = some i)
    (hlast : i + 1 = df.length) :
    (df.drop i).length = 1 ∧
      self.process_165_feature_dataframe df = .error .degenerateFit := by
  have hlen : (df.drop i).length = 1 := by
    rw [List.length_drop]
    omega
  refine ⟨hlen, ?_⟩
  obtain ⟨r, hr⟩ := List.length_eq_one.mp hlen
  rw [FindBandRatio.process_165_feature_dataframe, hb]
  simp only [hr]
  simp [FindBandRatio.find_slope_intercept]

/-- Witness for C10: a processed spectrum entirely below 1.626; the fallback
boundary is its last sample and processing fails on the one-point fit. -/
theorem boundary_at_last_sample_degenerate_witness :
    (cexBelowRows.drop 1).length = 1 ∧
      defaultBR.process_165_feature_dataframe cexBelowRows = .error .degenerateFit :=
  boundary_at_last_sample_degenerate defaultBR cexBelowRows 1 (by decide) (by decide)

/-! ### `find_area` performs no sample-count check (claim C4) -/

theorem trapz_const_fst : ∀ (l : List (ℚ × ℚ)) (c : ℚ),
    (∀ p ∈ l, p.1 = c) → trapz l = 0
  | [], _, _ => rfl
  | [_], _, _ => rfl
  | p :: q :: r, c, h => by
    have hp : p.1 = c := h p (by simp)
    have hq : q.1 = c := h q (by simp)
    have ih := trapz_const_fst (q :: r) c fun x hx => h x (List.mem_cons_of_mem p hx)
    rw [show trapz (p :: q :: r) =
        (q.1 - p.1) * (p.2 + q.2) / 2 + trapz (q :: r) from rfl, ih, hp, hq]
    ring

/-- **C4 counterexample**: a one-row table (a single wavelength value) —
`find_area` returns the number `0` (its codomain is `ℚ`; `np.trapz` never
raises), instead of failing. -/
theorem find_area_single_row_returns_number :
    FindBandRatio.find_area [⟨3/2, 2, 3⟩] = 0 := by decide

/-- **C4 amended**: `find_area` performs no sample-count check: it is total,
and on any table with fewer than two distinct wavelength values (here: all
pairs of rows share a wavelength) both trapezoidal integrals are zero-width,
so it returns the number `0` rather than failing. -/
theorem find_area_no_sample_check (df : List Row)
    (h : ∀ r ∈ df, ∀ r' ∈ df, r.wavelength = r'.wavelength) :
    FindBandRatio.find_area df = 0 := by
  cases df with
  | nil => decide
  | cons r0 t =>
    have h1 : ∀ p ∈ (r0 :: t).map (fun r => (r.wavelength, r.line)),
        p.1 = r0.wavelength := by
      intro p hp
      obtain ⟨r, hr, rfl⟩ := List.mem_map.mp hp
      exact h r hr r0 (by simp)
    have h2 : ∀ p ∈ (r0 :: t).map (fun r => (r.wavelength, r.reflectance)),
        p.1 = r0.wavelength := by
      intro p hp
      obtain ⟨r, hr, rfl⟩ := List.mem_map.mp hp
      exact h r hr r0 (by simp)
    rw [FindBandRatio.find_area, trapz_const_fst _ _ h1, trapz_const_fst _ _ h2]
    ring

/-- Witness for the amended C4: two rows sharing one wavelength. -/
theorem find_area_no_sample_check_witness :
    FindBandRatio.find_area [⟨3/2, 1, 1⟩, ⟨3/2, 2, 2⟩] = 0 :=
  find_area_no_sample_check [⟨3/2, 1, 1⟩, ⟨3/2, 2, 2⟩] (by decide)

/-! ### The ratio division is unguarded (claim C2) -/

theorem find_slope_intercept_error_cases {df : List Sample} {e : Err}
    (h : FindBandRatio.find_slope_intercept df = .error e) :
    e = .emptyTable ∨ e = .degenerateFit := by
  rw [FindBandRatio.find_slope_intercept] at h
  split at h
  · split at h
    · injection h with h'
      exact Or.inr h'.symm
    · exact absurd h (by simp)
  · injection h with h'
    exact Or.inl h'.symm

theorem process_spectrum_error_cases {self : FindBandRatio} {df : List Sample} {e : Err}
    (h : self.process_spectrum_dataframe df = .error e) :
    e = .emptyTable ∨ e = .degenerateFit := by
  rw [FindBandRatio.process_spectrum_dataframe] at h
  split at h
  · next heq =>
    injection h with h'
    exact h' ▸ find_slope_intercept_error_cases heq
  · exact absurd h (by simp)

theorem process_165_error_cases {self : FindBandRatio} {df : List Row} {e : Err}
    (h : self.process_165_feature_dataframe df = .error e) :
    e = .noFeatureBoundary ∨ e = .emptyTable ∨ e = .degenerateFit := by
  rw [FindBandRatio.process_165_feature_dataframe] at h
  split at h
  · injection h with h'
    exact Or.inl h'.symm
  · dsimp only at h
    split at h
    · next heq =>
      injection h with h'
      exact Or.inr (h' ▸ find_slope_intercept_error_cases heq)
    · exact absurd h (by simp)

/-- **C2 amended**: the ratio division is unguarded.  Whenever the two
processing stages succeed — in particular when the full-band area is exactly
zero — `find_ratio` completes without error: no `UndefinedRatioError` exists
anywhere in the pipeline.  (With numpy floats the unguarded division yields
inf/NaN; in the exact model rational division is total.) -/
theorem unguarded_ratio_division (self : FindBandRatio) (df : List Sample)
    (full feat : List Row)
    (hfull : self.process_spectrum_dataframe df = .ok full)
    (hfeat : self.process_165_feature_dataframe full = .ok feat)
    (h0 : FindBandRatio.find_area full = 0) :
    self.pipelineResult df =
      .ok (full, feat, FindBandRatio.find_area feat / FindBandRatio.find_area full) ∧
    self.find_ratio df = .ok PUnit.unit ∧
    ∀ g : List Sample, self.pipelineResult g ≠ .error .undefinedRatio := by
  have hpipe : self.pipelineResult df =
      .ok (full, feat, FindBandRatio.find_area feat / FindBandRatio.find_area full) := by
    simp only [FindBandRatio.pipelineResult, hfull, hfeat]
  refine ⟨hpipe, ?_, ?_⟩
  · rw [FindBandRatio.find_ratio, hpipe]
  · intro g hcontra
    rw [FindBandRatio.pipelineResult] at hcontra
    split at hcontra
    · next heq =>
      injection hcontra with h'
      rcases process_spectrum_error_cases (h' ▸ heq) with hc | hc <;> cases hc
    · split at hcontra
      · next heq =>
        injection hcontra with h'
        rcases process_165_error_cases (h' ▸ heq) with hc | hc | hc <;> cases hc
      · exact absurd hcontra (by simp)

/-- Witness for the amended C2: on `cexZero` the full-band area is exactly
zero and `find_ratio` still succeeds. -/
theorem unguarded_ratio_division_witness :
    defaultBR.pipelineResult cexZero =
      .ok (cexZeroFull, cexZeroFeat,
        FindBandRatio.find_area cexZeroFeat / FindBandRatio.find_area cexZeroFull) ∧
    defaultBR.find_ratio cexZero = .ok PUnit.unit ∧
    ∀ g : List Sample, defaultBR.pipelineResult g ≠ .error .undefinedRatio :=
  unguarded_ratio_division defaultBR cexZero cexZeroFull cexZeroFeat
    (by decide) (by decide) (by decide)

/-- **C2 counterexample**: `cexZero`'s full-band area is exactly zero, yet the
whole computation completes without any error being surfaced. -/
theorem zero_area_no_error :
    defaultBR.process_spectrum_dataframe cexZero = .ok cexZeroFull ∧
    FindBandRatio.find_area cexZeroFull = 0 ∧
    defaultBR.find_ratio cexZero = .ok PUnit.unit :=
  ⟨by decide, by decide, by decide⟩

/-! ### `find_ratio` returns nothing (claim C1) -/

/-- **C1**, code evaluated at a concrete valid input: `find_ratio` succeeds on
`c1In` yet its result carries no data — the Python function body computes the
ratio and the two processed tables but has no `return` statement, so the
caller receives `None` (here `PUnit`), not the `BandRatio` and tables. -/
theorem find_ratio_returns_no_data :
    defaultBR.find_ratio c1In = .ok PUnit.unit := by decide

/-! ### Idempotence of windowing and sorting (claim C9) -/

/-- **C9**: running the pipeline on the already-filtered-and-sorted version of
an input (restricted to `[min_micron, max_micron)` and sorted by
(wavelength, reflectance)) produces exactly the same processed full band —
and hence the same full pipeline result — as running it on the raw input. -/
theorem process_filtered_sorted_idempotent (self : FindBandRatio) (df : List Sample) :
    self.process_spectrum_dataframe (sortSamples (df.filter (self.inWindow ·))) =
      self.process_spectrum_dataframe df ∧
    self.pipelineResult (sortSamples (df.filter (self.inWindow ·))) =
      self.pipelineResult df := by
  have hmem : ∀ a ∈ sortSamples (df.filter (self.inWindow ·)), self.inWindow a := by
    intro a ha
    rw [sortSamples, List.mem_insertionSort] at ha
    exact List.of_mem_filter ha
  have hfilter : (sortSamples (df.filter (self.inWindow ·))).filter (self.inWindow ·) =
      sortSamples (df.filter (self.inWindow ·)) :=
    List.filter_eq_self.mpr hmem
  have hsort : sortSamples (sortSamples (df.filter (self.inWindow ·))) =
      sortSamples (df.filter (self.inWindow ·)) :=
    List.Sorted.insertionSort_eq (List.sorted_insertionSort sampleR _)
  have hstage : self.process_spectrum_dataframe (sortSamples (df.filter (self.inWindow ·))) =
      self.process_spectrum_dataframe df := by
    simp only [FindBandRatio.process_spectrum_dataframe]
    rw [hfilter, hsort]
  refine ⟨hstage, ?_⟩
  rw [FindBandRatio.pipelineResult, FindBandRatio.pipelineResult, hstage]

/-! ### Reflectance scaling (claim C8) -/

theorem filter_map_comm {α β : Type _} (f : α → β) (p : β → Bool) (l : List α) :
    (l.map f).filter p = (l.filter fun a => p (f a)).map f := by
  induction l with
  | nil => rfl
  | cons a t ih =>
    simp only [List.map_cons, List.filter_cons]
    cases hp : p (f a) <;> simp [hp, ih]

theorem sortSamples_scaleRefl (k : ℚ) (hk : 0 ≤ k) (l : List Sample) :
    sortSamples (scaleRefl k l) = scaleRefl k (sortSamples l) := by
  unfold scaleRefl sortSamples
  have hperm : List.Perm
      ((l.map fun s => (⟨s.wavelength, k * s.reflectance⟩ : Sample)).insertionSort sampleR)
      ((l.insertionSort sampleR).map fun s => (⟨s.wavelength, k * s.reflectance⟩ : Sample)) :=
    (List.perm_insertionSort _ _).trans ((List.perm_insertionSort sampleR l).map _).symm
  have hs1 : List.Sorted sampleR
      ((l.map fun s => (⟨s.wavelength, k * s.reflectance⟩ : Sample)).insertionSort sampleR) :=
    List.sorted_insertionSort _ _
  have hs2 : List.Sorted sampleR
      ((l.insertionSort sampleR).map fun s => (⟨s.wavelength, k * s.reflectance⟩ : Sample)) := by
    refine List.Pairwise.map _ ?_ (List.sorted_insertionSort sampleR l)
    intro a b hab
    rcases hab with h | ⟨he, hr⟩
    · exact Or.inl h
    · exact Or.inr ⟨he, mul_le_mul_of_nonneg_left hr hk⟩
  exact List.eq_of_perm_of_sorted hperm hs1 hs2

theorem find_slope_intercept_scaleRefl (k : ℚ) (l : List Sample) :
    FindBandRatio.find_slope_intercept (scaleRefl k l) =
      (FindBandRatio.find_slope_intercept l).map fun si => (k * si.1, k * si.2) := by
  cases l with
  | nil => rfl
  | cons a t =>
    have hb : (a :: t).getLast? = some ((a :: t).getLast (List.cons_ne_nil a t)) :=
      List.getLast?_eq_getLast _ _
    have hh2 : (scaleRefl k (a :: t)).head? =
        some ⟨a.wavelength, k * a.reflectance⟩ := rfl
    have hl2 : (scaleRefl k (a :: t)).getLast? =
        some ⟨((a :: t).getLast (List.cons_ne_nil a t)).wavelength,
          k * ((a :: t).getLast (List.cons_ne_nil a t)).reflectance⟩ := by
      rw [scaleRefl, List.getLast?_map, hb]
      rfl
    rw [FindBandRatio.find_slope_intercept, FindBandRatio.find_slope_intercept,
      hh2, hl2, hb]
    simp only [List.head?_cons]
    by_cases hw : a.wavelength = ((a :: t).getLast (List.cons_ne_nil a t)).wavelength
    · simp only [if_pos hw]
      rfl
    · simp only [if_neg hw, Except.map]
      simp only [Except.ok.injEq, Prod.mk.injEq]
      constructor
      · ring
      · ring

theorem process_spectrum_scaleRefl (self : FindBandRatio) (k : ℚ) (hk : 0 ≤ k)
    (df : List Sample) :
    self.process_spectrum_dataframe (scaleRefl k df) =
      (self.process_spectrum_dataframe df).map (List.map (scaleRow k)) := by
  have hpred : (fun a : Sample =>
      self.inWindow ⟨a.wavelength, k * a.reflectance⟩) = fun a : Sample => self.inWindow a := by
    funext a
    rfl
  have hfilter : (scaleRefl k df).filter (self.inWindow ·) =
      scaleRefl k (df.filter (self.inWindow ·)) := by
    unfold scaleRefl
    rw [filter_map_comm, hpred]
  rw [FindBandRatio.process_spectrum_dataframe, FindBandRatio.process_spectrum_dataframe]
  rw [hfilter, sortSamples_scaleRefl k hk, find_slope_intercept_scaleRefl]
  cases hfit :
      FindBandRatio.find_slope_intercept (sortSamples (df.filter (self.inWindow ·))) with
  | error e => simp [hfit, Except.map]
  | ok si =>
    simp only [hfit, Except.map, Except.ok.injEq]
    rw [scaleRefl]
    simp only [List.map_map]
    refine List.map_congr_left ?_
    intro a _
    simp only [Function.comp, scaleRow, Row.mk.injEq]
    refine ⟨trivial, trivial, by ring⟩

theorem lastIdxWhere_map {α β : Type _} (f : α → β) (p : β → Bool) (l : List α) :
    lastIdxWhere p (l.map f) = lastIdxWhere (fun a => p (f a)) l := by
  induction l with
  | nil => rfl
  | cons a t ih => rw [List.map_cons, lastIdxWhere, lastIdxWhere, ih]

theorem feature_boundary_index_scaleRow (self : FindBandRatio) (k : ℚ) (df : List Row) :
    self.feature_boundary_index (df.map (scaleRow k)) = self.feature_boundary_index df := by
  have hp1 : (fun r : Row => decide ((scaleRow k r).wavelength = self.min_micron_165)) =
      fun r : Row => decide (r.wavelength = self.min_micron_165) := rfl
  have hp2 : (fun r : Row => decide ((scaleRow k r).wavelength < self.min_micron_165)) =
      fun r : Row => decide (r.wavelength < self.min_micron_165) := rfl
  rw [FindBandRatio.feature_boundary_index, FindBandRatio.feature_boundary_index,
    lastIdxWhere_map, lastIdxWhere_map, hp1, hp2]

theorem process_165_scaleRow (self : FindBandRatio) (k : ℚ) (df : List Row) :
    self.process_165_feature_dataframe (df.map (scaleRow k)) =
      (self.process_165_feature_dataframe df).map (List.map (scaleRow k)) := by
  rw [FindBandRatio.process_165_feature_dataframe, FindBandRatio.process_165_feature_dataframe,
    feature_boundary_index_scaleRow]
  cases hb : self.feature_boundary_index df with
  | none => rfl
  | some i =>
    dsimp only
    have hsub : ((df.map (scaleRow k)).drop i).map Row.toSample =
        scaleRefl k ((df.drop i).map Row.toSample) := by
      rw [← List.map_drop, List.map_map, scaleRefl, List.map_map]
      rfl
    rw [hsub, find_slope_intercept_scaleRefl]
    cases hfit : FindBandRatio.find_slope_intercept ((df.drop i).map Row.toSample) with
    | error e => simp [hfit, Except.map]
    | ok si =>
      simp only [hfit, Except.map, Except.ok.injEq]
      rw [scaleRefl]
      simp only [List.map_map]
      refine List.map_congr_left ?_
      intro a _
      simp only [Function.comp, scaleRow, Row.toSample, Row.mk.injEq]
      refine ⟨trivial, trivial, by ring⟩

theorem trapz_scale_snd : ∀ (l : List (ℚ × ℚ)) (k : ℚ),
    trapz (l.map fun p => (p.1, k * p.2)) = k * trapz l
  | [], k => by simp [trapz]
  | [p], k => by simp [trapz]
  | p :: q :: r, k => by
    have ih := trapz_scale_snd (q :: r) k
    show (q.1 - p.1) * (k * p.2 + k * q.2) / 2 +
        trapz ((q :: r).map fun p => (p.1, k * p.2)) =
      k * ((q.1 - p.1) * (p.2 + q.2) / 2 + trapz (q :: r))
    rw [ih]
    ring

theorem find_area_scaleRow (k : ℚ) (df : List Row) :
    FindBandRatio.find_area (df.map (scaleRow k)) = k * FindBandRatio.find_area df := by
  rw [FindBandRatio.find_area, FindBandRatio.find_area]
  have h1 : (df.map (scaleRow k)).map (fun r => (r.wavelength, r.line)) =
      (df.map fun r => (r.wavelength, r.line)).map fun p => (p.1, k * p.2) := by
    rw [List.map_map, List.map_map]
    exact List.map_congr_left fun a _ => rfl
  have h2 : (df.map (scaleRow k)).map (fun r => (r.wavelength, r.reflectance)) =
      (df.map fun r => (r.wavelength, r.reflectance)).map fun p => (p.1, k * p.2) := by
    rw [List.map_map, List.map_map]
    exact List.map_congr_left fun a _ => rfl
  rw [h1, h2, trapz_scale_snd, trapz_scale_snd]
  ring

/-- **C8 amended**: for every *nonnegative* constant `k`, scaling all
reflectance values by `k` (baselines refit from the scaled endpoints) scales
both the full-band area and the feature area by `k`, and leaves the ratio
unchanged whenever the scaled full-band area is nonzero.  (For negative `k`
the claim fails — see the counterexample — because re-sorting by
(wavelength, reflectance) can swap duplicate-wavelength rows and change the
chord endpoints.) -/
theorem scaling_invariance (self : FindBandRatio) (df : List Sample) (k : ℚ)
    (hk : 0 ≤ k) (full feat : List Row) (r : ℚ)
    (h : self.pipelineResult df = .ok (full, feat, r)) :
    ∃ full2 feat2 r2,
      self.pipelineResult (scaleRefl k df) = .ok (full2, feat2, r2) ∧
      FindBandRatio.find_area full2 = k * FindBandRatio.find_area full ∧
      FindBandRatio.find_area feat2 = k * FindBandRatio.find_area feat ∧
      (FindBandRatio.find_area full2 ≠ 0 → r2 = r) := by
  rw [FindBandRatio.pipelineResult] at h
  cases hfull : self.process_spectrum_dataframe df with
  | error e =>
    rw [hfull] at h
    exact absurd h (by simp)
  | ok full0 =>
    rw [hfull] at h
    dsimp only at h
    cases hfeat : self.process_165_feature_dataframe full0 with
    | error e =>
      rw [hfeat] at h
      exact absurd h (by simp)
    | ok feat0 =>
      rw [hfeat] at h
      simp only [Except.ok.injEq, Prod.mk.injEq] at h
      obtain ⟨rfl, rfl, rfl⟩ := h
      have hfull2 : self.process_spectrum_dataframe (scaleRefl k df) =
          .ok (full0.map (scaleRow k)) := by
        rw [process_spectrum_scaleRefl self k hk, hfull]
        rfl
      have hfeat2 : self.process_165_feature_dataframe (full0.map (scaleRow k)) =
          .ok (feat0.map (scaleRow k)) := by
        rw [process_165_scaleRow, hfeat]
        rfl
      refine ⟨full0.map (scaleRow k), feat0.map (scaleRow k),
        FindBandRatio.find_area (feat0.map (scaleRow k)) /
          FindBandRatio.find_area (full0.map (scaleRow k)), ?_, ?_, ?_, ?_⟩
      · simp only [FindBandRatio.pipelineResult, hfull2, hfeat2]
      · exact find_area_scaleRow k full0
      · exact find_area_scaleRow k feat0
      · intro hne
        rw [find_area_scaleRow] at hne
        have hk0 : k ≠ 0 := fun hc => hne (by rw [hc, zero_mul])
        rw [find_area_scaleRow, find_area_scaleRow,
          mul_div_mul_left _ _ hk0]

/-- Witness for the amended C8 at `wIn`, `k = 2`. -/
theorem scaling_invariance_witness :
    (0 : ℚ) ≤ 2 ∧
    ∃ full2 feat2 r2,
      defaultBR.pipelineResult (scaleRefl 2 wIn) = .ok (full2, feat2, r2) ∧
      FindBandRatio.find_area full2 = 2 * FindBandRatio.find_area wInFull ∧
      FindBandRatio.find_area feat2 = 2 * FindBandRatio.find_area wInFeat ∧
      (FindBandRatio.find_area full2 ≠ 0 → r2 = 0) :=
  ⟨by norm_num,
    scaling_invariance defaultBR wIn 2 (by norm_num) wInFull wInFeat 0 (by decide)⟩

/-- **C8 counterexample**: on the valid input `cexScale` (duplicate
wavelengths at the window start) with `k = -1`, the pipeline succeeds on both
the original and the scaled input, but the scaled full-band area is `-1/20`
while `k` times the original area is `3/40`: the area does *not* scale by
`k`. -/
theorem scaling_fails_for_negative_k :
    defaultBR.find_ratio cexScale = .ok PUnit.unit ∧
    defaultBR.find_ratio (scaleRefl (-1) cexScale) = .ok PUnit.unit ∧
    (defaultBR.process_spectrum_dataframe cexScale).map FindBandRatio.find_area =
      .ok (-3/40) ∧
    (defaultBR.process_spectrum_dataframe (scaleRefl (-1) cexScale)).map
      FindBandRatio.find_area = .ok (-1/20) ∧
    (-1 : ℚ)/20 ≠ (-1) * (-3/40) :=
  ⟨by decide, by decide, by decide, by decide, by decide⟩

end

end BandRatio
